import Mathlib

/-!
# Hostel management system: verification of the data model and business rules

This development shallowly embeds the core of a hostel-management web
application (`app51.py`): a relational store with users, rooms, students,
allocations, payments and issues, plus the request handlers that mutate it.

Modelling conventions:
* Each SQLite table is a Lean `List` of row structures; `AUTOINCREMENT`
  primary keys are modelled by per-table `next*Id` counters in the `DB` state.
* `SELECT ... WHERE id=? ... fetchone()` is `List.find?`; `UPDATE ... WHERE`
  is `List.map` guarded by the `WHERE` condition; `DELETE ... WHERE` is
  `List.filter`.
* The schema runs with `PRAGMA foreign_keys = ON`, so `DELETE FROM students`
  cascades to allocations and payments (`ON DELETE CASCADE`) and detaches
  issues (`ON DELETE SET NULL`); this is folded into `delete_student`.
* A handler outcome is `ok` (success flash / redirect), `err msg`
  (`flash(msg, 'error')`), or `crash` (an exception escapes the handler:
  e.g. subscripting a missing `fetchone()` row, or an FK `IntegrityError`
  outside any `try`).  A Python exception aborts the request before
  `db.commit()`, and the per-request connection is closed at teardown,
  which rolls the open transaction back — so a `crash` (and a caught
  error before `commit`) leaves the persisted state unchanged.
* Timestamps (`datetime.utcnow().isoformat()`, `date.today().isoformat()`)
  are opaque strings threaded in as parameters.
-/

namespace HostelMS

/-- Row of the `users` table. -/
structure User where
  id : Nat
  username : String
  password_hash : String
  role : String
  created_at : String
  deriving DecidableEq, Repr

/-- Row of the `rooms` table (`capacity INTEGER CHECK (capacity > 0)`,
`occupied INTEGER NOT NULL DEFAULT 0`). -/
structure Room where
  id : Nat
  number : String
  type : String
  capacity : Int
  occupied : Int
  deriving DecidableEq, Repr

/-- Row of the `students` table (`email TEXT UNIQUE` is nullable,
`user_id INTEGER UNIQUE` references `users` with `ON DELETE SET NULL`). -/
structure Student where
  id : Nat
  user_id : Option Nat
  name : String
  email : Option String
  phone : String
  guardian : String
  department : String
  batch : String
  semester : String
  created_at : String
  deriving DecidableEq, Repr

/-- Row of the `allocations` table (`status TEXT NOT NULL DEFAULT 'active'`;
FKs to `students` and `rooms`, both `ON DELETE CASCADE`). -/
structure Allocation where
  id : Nat
  student_id : Nat
  room_id : Nat
  start_date : String
  end_date : Option String
  status : String
  created_at : String
  deriving DecidableEq, Repr

/-- Row of the `payments` table (`status TEXT NOT NULL DEFAULT 'Pending'`;
FK to `students` `ON DELETE CASCADE`).  `amount REAL` carries the parsed
form value; no claim computes with it, so it is carried as an integer. -/
structure Payment where
  id : Nat
  student_id : Nat
  amount : Int
  method : String
  paid_on : String
  note : String
  proof_path : Option String
  status : String
  created_at : String
  deriving DecidableEq, Repr

/-- Row of the `issues` table (`student_id INTEGER` nullable, FK to
`students` `ON DELETE SET NULL`; `status TEXT NOT NULL DEFAULT 'open'`). -/
structure Issue where
  id : Nat
  student_id : Option Nat
  title : String
  detail : String
  status : String
  created_at : String
  deriving DecidableEq, Repr

/-- The whole relational store, with one `AUTOINCREMENT` counter per table. -/
structure DB where
  users : List User
  rooms : List Room
  students : List Student
  allocations : List Allocation
  payments : List Payment
  issues : List Issue
  nextUserId : Nat
  nextRoomId : Nat
  nextStudentId : Nat
  nextAllocId : Nat
  nextPaymentId : Nat
  nextIssueId : Nat
  deriving DecidableEq, Repr

/-- A freshly created database (before the seeded admin user). -/
def emptyDB : DB :=
  { users := [], rooms := [], students := [], allocations := [], payments := [],
    issues := [], nextUserId := 1, nextRoomId := 1, nextStudentId := 1,
    nextAllocId := 1, nextPaymentId := 1, nextIssueId := 1 }

/-- Result of one request handler: a success path, a `flash(..., 'error')`
path, or an exception escaping the handler (HTTP 500). -/
inductive Outcome where
  | ok : Outcome
  | err : String → Outcome
  | crash : Outcome
  deriving DecidableEq, Repr

/-- `SELECT * FROM rooms WHERE id=? ... fetchone()`. -/
def findRoom (db : DB) (rid : Nat) : Option Room :=
  db.rooms.find? (fun r => r.id == rid)

/-- `SELECT * FROM allocations WHERE id=? ... fetchone()`. -/
def findAlloc (db : DB) (aid : Nat) : Option Allocation :=
  db.allocations.find? (fun a => a.id == aid)

/-- Whether a student row with this primary key exists (the FK check SQLite
performs when an allocation or payment row is inserted). -/
def studentExists (db : DB) (sid : Nat) : Bool :=
  db.students.any (fun s => s.id == sid)

/-- `SELECT * FROM students WHERE user_id=? ... fetchone()` — resolves the
session user to their linked student profile (`current_student_row`). -/
def findStudentByUser (db : DB) (uid : Nat) : Option Student :=
  db.students.find? (fun s => s.user_id == some uid)

/-- Count of allocations on a room with `status='active'` (what the spec says
`rooms.occupied` always equals). -/
def activeAllocCount (db : DB) (rid : Nat) : Nat :=
  (db.allocations.filter (fun a => a.room_id == rid && a.status == "active")).length

/-- `allocations` route, `action == 'allocate'`:
reads the room (`fetchone`), flashes `'Room is full'` when
`room['occupied'] >= room['capacity']`, otherwise inserts an active
allocation and runs `UPDATE rooms SET occupied = occupied + 1`.
A missing room makes `room['occupied']` raise `TypeError` (no `try` around
it), and a missing student makes the FK `INSERT` raise `IntegrityError`;
either exception escapes before `commit`, so the state is unchanged. -/
def allocate (db : DB) (student_id room_id : Nat) (start_date now : String) :
    Outcome × DB :=
  match findRoom db room_id with
  | none => (Outcome.crash, db)
  | some room =>
    if room.capacity ≤ room.occupied then
      (Outcome.err "Room is full", db)
    else if studentExists db student_id then
      (Outcome.ok,
        { db with
          allocations := db.allocations ++
            [⟨db.nextAllocId, student_id, room_id, start_date, none, "active", now⟩],
          nextAllocId := db.nextAllocId + 1,
          rooms := db.rooms.map (fun r =>
            if r.id == room_id then { r with occupied := r.occupied + 1 } else r) })
    else
      (Outcome.crash, db)

/-- `allocations` route, `action == 'release'`:
if the allocation exists and is `'active'`, sets `status='released'` and
`end_date = today`, and runs
`UPDATE rooms SET occupied = CASE WHEN occupied>0 THEN occupied-1 ELSE 0 END`;
otherwise silently falls through to the listing. -/
def release (db : DB) (alloc_id : Nat) (today : String) : Outcome × DB :=
  match findAlloc db alloc_id with
  | none => (Outcome.ok, db)
  | some alloc =>
    if alloc.status = "active" then
      (Outcome.ok,
        { db with
          allocations := db.allocations.map (fun a =>
            if a.id == alloc_id then
              { a with status := "released", end_date := some today }
            else a),
          rooms := db.rooms.map (fun r =>
            if r.id == alloc.room_id then
              { r with occupied := if 0 < r.occupied then r.occupied - 1 else 0 }
            else r) })
    else
      (Outcome.ok, db)

/-- `rooms` route, create branch: `INSERT INTO rooms (number,type,capacity,occupied)
VALUES (?,?,?,0)`; a duplicate `number` (UNIQUE) or `capacity <= 0`
(CHECK) raises `IntegrityError`, caught and flashed.  The empty form type
defaults to `'Standard'`. -/
def rooms_create (db : DB) (number rtype : String) (cap : Int) : Outcome × DB :=
  if db.rooms.any (fun r => r.number == number) || cap ≤ 0 then
    (Outcome.err "Room number already exists", db)
  else
    (Outcome.ok,
      { db with
        rooms := db.rooms ++
          [⟨db.nextRoomId, number, if rtype = "" then "Standard" else rtype, cap, 0⟩],
        nextRoomId := db.nextRoomId + 1 })

/-- `rooms` route, `_method == 'DELETE'`: `DELETE FROM rooms WHERE id=?`;
the FK `ON DELETE CASCADE` removes that room's allocations. -/
def rooms_delete (db : DB) (rid : Nat) : DB :=
  { db with
    rooms := db.rooms.filter (fun r => !(r.id == rid)),
    allocations := db.allocations.filter (fun a => !(a.room_id == rid)) }

/-- `DELETE FROM students WHERE id=?` under `PRAGMA foreign_keys = ON`:
the student row goes, allocations and payments referencing it cascade away,
and that student's issues get `student_id = NULL`.  Nothing else — in
particular no room row — is touched. -/
def delete_student (db : DB) (sid : Nat) : DB :=
  { db with
    students := db.students.filter (fun s => !(s.id == sid)),
    allocations := db.allocations.filter (fun a => !(a.student_id == sid)),
    payments := db.payments.filter (fun p => !(p.student_id == sid)),
    issues := db.issues.map (fun i =>
      if i.student_id == some sid then { i with student_id := none } else i) }

/-- Whether a (non-null) email already violates `students.email UNIQUE`.
SQLite's `UNIQUE` admits any number of NULLs, matching the `none` case. -/
def emailTaken (db : DB) : Option String → Bool
  | none => false
  | some e => db.students.any (fun s => s.email == some e)

/-- `werkzeug.security.generate_password_hash`, abstracted as an opaque
injective tag; hashing internals are outside the embedded core. -/
def hashPassword (p : String) : String := "pbkdf2:" ++ p

/-- `INSERT INTO users (username,password_hash,role,created_at)`; a duplicate
username violates `users.username UNIQUE` and raises `IntegrityError`. -/
def insertUser (db : DB) (username password role now : String) : Except String DB :=
  if db.users.any (fun u => u.username == username) then
    Except.error "UNIQUE constraint failed: users.username"
  else
    Except.ok
      { db with
        users := db.users ++ [⟨db.nextUserId, username, hashPassword password, role, now⟩],
        nextUserId := db.nextUserId + 1 }

/-- `INSERT INTO students (...)`; a duplicate non-null email violates
`students.email UNIQUE` and raises `IntegrityError`. -/
def insertStudent (db : DB) (uid : Option Nat) (name : String) (email : Option String)
    (phone guardian department batch semester now : String) : Except String DB :=
  if emailTaken db email then
    Except.error "UNIQUE constraint failed: students.email"
  else
    Except.ok
      { db with
        students := db.students ++
          [⟨db.nextStudentId, uid, name, email, phone, guardian, department, batch,
            semester, now⟩],
        nextStudentId := db.nextStudentId + 1 }

/-- `register` route (POST): inserts the `users` row (role `'student'`),
then the linked `students` row, then commits; a `sqlite3.IntegrityError`
from either insert is caught and flashed.  When the second insert fails the
first one is still uncommitted, and closing the per-request connection at
teardown rolls it back — so either both rows persist or neither does. -/
def register (db : DB) (username password name : String) (email : Option String)
    (phone guardian department batch semester now : String) : Outcome × DB :=
  match insertUser db username password "student" now with
  | Except.error _ => (Outcome.err "Username or email already exists.", db)
  | Except.ok db1 =>
    match insertStudent db1 (some db.nextUserId) name email phone guardian
        department batch semester now with
    | Except.error _ => (Outcome.err "Username or email already exists.", db)
    | Except.ok db2 => (Outcome.ok, db2)

/-- `students` route, create branch (admin path, no linked user):
`INSERT INTO students (...)` with `user_id` absent (NULL); a duplicate email
is caught and flashed. -/
def students_create (db : DB) (name : String) (email : Option String)
    (phone guardian department batch semester now : String) : Outcome × DB :=
  match insertStudent db none name email phone guardian department batch
      semester now with
  | Except.error _ => (Outcome.err "Email already exists", db)
  | Except.ok db1 => (Outcome.ok, db1)

/-- Fixed upload allow-list (`ALLOWED_EXTS` in the app). -/
def ALLOWED_EXTS : List String := ["png", "jpg", "jpeg", "webp", "gif", "bmp", "heic", "pdf"]

/-- ASCII lowercase of a character list (Python `str.lower` / SQLite `LIKE`
case folding; both fold only ASCII letters, as does `Char.toLower`). -/
def lowerChars (l : List Char) : List Char := l.map Char.toLower

/-- `filename.rsplit('.', 1)[1]`: the characters after the last dot. -/
def afterLastDot (l : List Char) : List Char :=
  (l.reverse.takeWhile (fun c => !(c == '.'))).reverse

/-- `allowed_file`: the filename contains a dot and the lowercased text after
the last dot is in the fixed allow-list. -/
def allowed_file (filename : String) : Bool :=
  filename.data.contains '.' &&
    ALLOWED_EXTS.any (fun e => e.data == lowerChars (afterLastDot filename.data))

/-- Stored proof name `f"proof_{student_id}_{int(timestamp)}_{secure_filename(name)}"`.
`secure_filename` only sanitizes the original name and no claim inspects the
result, so the sanitizer is carried as the original name. -/
def storedProofName (sid : Nat) (ts fname : String) : String :=
  "proof_" ++ toString sid ++ "_" ++ ts ++ "_" ++ fname

/-- Fields of the admin `payments` POST form. `paid_on` empty means absent
(`request.form.get('paid_on') or date.today()`); `proofFile` is the uploaded
filename, if a file was attached. -/
structure PaymentForm where
  student_id : Nat
  amount : Int
  method : String
  paid_on : String
  note : String
  status : String
  proofFile : Option String
  deriving DecidableEq, Repr

/-- `payments` route (admin POST): stores the upload only when the filename is
non-empty and passes `allowed_file` — otherwise `proof_path` stays NULL and
the insert proceeds anyway; the row takes whatever `status` the admin form
sent.  A nonexistent student makes the FK `INSERT` raise `IntegrityError`
outside any `try` (crash, nothing committed). -/
def payments_post (db : DB) (f : PaymentForm) (now today : String) : Outcome × DB :=
  if studentExists db f.student_id then
    (Outcome.ok,
      { db with
        payments := db.payments ++
          [⟨db.nextPaymentId, f.student_id, f.amount, f.method,
            (if f.paid_on = "" then today else f.paid_on), f.note,
            (match f.proofFile with
             | some fn =>
               if fn ≠ "" && allowed_file fn then
                 some (storedProofName f.student_id now fn)
               else none
             | none => none),
            f.status, now⟩],
        nextPaymentId := db.nextPaymentId + 1 })
  else
    (Outcome.crash, db)

/-- Fields of the student `/portal/payments` POST form.  The rendered form has
no status or student selector; `status` here stands for any stray status
value a request might carry — the handler never reads it. -/
structure PortalPaymentForm where
  amount : Int
  method : String
  paid_on : String
  note : String
  status : String
  proofFile : Option String
  deriving DecidableEq, Repr

/-- `/portal/payments` route (student POST): resolves the caller's own student
row from the session `user_id` (`current_student_row`), redirects with an
error when there is none, and otherwise inserts a payment whose
`student_id` is that row's id and whose status is the literal `'Pending'`. -/
def portal_payments_post (db : DB) (uid : Nat) (f : PortalPaymentForm)
    (now today : String) : Outcome × DB :=
  match findStudentByUser db uid with
  | none => (Outcome.err "Profile not found.", db)
  | some stu =>
    (Outcome.ok,
      { db with
        payments := db.payments ++
          [⟨db.nextPaymentId, stu.id, f.amount, f.method,
            (if f.paid_on = "" then today else f.paid_on), f.note,
            (match f.proofFile with
             | some fn =>
               if fn ≠ "" && allowed_file fn then
                 some (storedProofName stu.id now fn)
               else none
             | none => none),
            "Pending", now⟩],
        nextPaymentId := db.nextPaymentId + 1 })

/-- `issues` route, new-issue branch: admins may pass a target student id (or
none); students get their own resolved profile id (or none when no profile
is linked).  Inserts with status `'open'`. -/
def log_issue (db : DB) (role : String) (uid : Nat) (formStudent : Option Nat)
    (title detail now : String) : Outcome × DB :=
  let sid : Option Nat :=
    if role = "student" then (findStudentByUser db uid).map Student.id
    else formStudent
  (Outcome.ok,
    { db with
      issues := db.issues ++ [⟨db.nextIssueId, sid, title, detail, "open", now⟩],
      nextIssueId := db.nextIssueId + 1 })

/-- `issues` route, `action == 'close'`: non-admins get flashed
`'Not authorized'` and nothing runs; admins run
`UPDATE issues SET status='closed' WHERE id=?` (a no-op when the id is
absent or the issue is already closed). -/
def close_issue (db : DB) (role : String) (iid : Nat) : Outcome × DB :=
  if role ≠ "admin" then
    (Outcome.err "Not authorized", db)
  else
    (Outcome.ok,
      { db with
        issues := db.issues.map (fun i =>
          if i.id == iid then { i with status := "closed" } else i) })

/-!  SQL `LIKE` matching, for the student search
(`WHERE name LIKE '%q%' OR email LIKE '%q%' OR ...`).
SQLite's default `LIKE`: `%` matches any sequence, `_` any single
character, and literal characters compare ASCII-case-insensitively. -/

/-- Does `f` accept the list itself or one of its suffixes?  (`%` consumes an
arbitrary amount of leading text.) -/
def anySuffix (f : List Char → Bool) : List Char → Bool
  | [] => f []
  | c :: s => f (c :: s) || anySuffix f s

/-- SQLite `LIKE` on character lists: first argument the pattern, second the
text.  `%` matches any sequence, `_` any single character, and a literal
character matches ASCII-case-insensitively. -/
def likeMatch : List Char → List Char → Bool
  | [], s => s.isEmpty
  | a :: p, s =>
    if a = '%' then anySuffix (likeMatch p) s
    else
      match s with
      | [] => false
      | c :: s' => (a == '_' || a.toLower == c.toLower) && likeMatch p s'

/-- The pattern the route builds: `f'%{qs}%'`. -/
def patOf (q : String) : List Char := '%' :: (q.data ++ ['%'])

/-- One `column LIKE '%q%'` test on a NOT NULL text column. -/
def fieldLike (q f : String) : Bool := likeMatch (patOf q) f.data

/-- `column LIKE '%q%'` on a nullable column: NULL compares to NULL, which is
not true, so the row does not match on that column. -/
def optFieldLike (q : String) : Option String → Bool
  | none => false
  | some f => fieldLike q f

/-- The five-way OR filter of the student search. -/
def studentMatches (q : String) (s : Student) : Bool :=
  fieldLike q s.name || optFieldLike q s.email || fieldLike q s.department ||
    fieldLike q s.batch || fieldLike q s.semester

/-- Insert a student into a list kept in descending id order. -/
def insertByIdDesc (s : Student) : List Student → List Student
  | [] => [s]
  | t :: ts => if t.id ≤ s.id then s :: t :: ts else t :: insertByIdDesc s ts

/-- `ORDER BY id DESC` as an insertion sort. -/
def sortByIdDesc : List Student → List Student
  | [] => []
  | s :: ss => insertByIdDesc s (sortByIdDesc ss)

/-- `students` route, GET: with a non-empty `q`, rows where any of name,
email, department, batch, semester is `LIKE '%q%'`, ordered `id DESC`;
with empty `q`, all rows ordered `id DESC`. -/
def students_search (db : DB) (q : String) : List Student :=
  if q = "" then sortByIdDesc db.students
  else sortByIdDesc (db.students.filter (studentMatches q))

/-- The spec's reading of the search predicate (refinement target, following
the spec's words, not the SQL): the query is a case-insensitive substring
of at least one of the five fields.  `isSubChars q s` holds when `q` is a
prefix of some suffix of `s`. -/
def isSubChars (q : List Char) : List Char → Bool
  | [] => q.isEmpty
  | c :: s => q.isPrefixOf (c :: s) || isSubChars q s

/-- Case-insensitive substring test on strings (spec-side). -/
def isSubstrCI (q s : String) : Bool :=
  isSubChars (lowerChars q.data) (lowerChars s.data)

/-- Spec-side student match: case-insensitive substring on one of
{name, email, department, batch, semester}, OR-combined. -/
def specStudentMatches (q : String) (s : Student) : Bool :=
  isSubstrCI q s.name ||
    (match s.email with
     | some e => isSubstrCI q e
     | none => false) ||
    isSubstrCI q s.department || isSubstrCI q s.batch || isSubstrCI q s.semester

/-- The search string contains no SQL `LIKE` wildcard. -/
def noWildcards (q : String) : Prop := '%' ∉ q.data ∧ '_' ∉ q.data

/-- A list of students in (weakly) descending id order. -/
def sortedDescProp (l : List Student) : Prop :=
  l.Pairwise (fun a b => b.id ≤ a.id)

/-! ### Concrete states used by witnesses and counterexamples -/

/-- A full room and a state containing it, for the C2 witness. -/
def roomFull : Room := ⟨1, "A1", "Standard", 1, 1⟩

/-- State with one fully occupied room. -/
def dbFull : DB := { emptyDB with rooms := [roomFull], nextRoomId := 2 }

/-- Reachable state: room `A1` (capacity 1) created from a fresh database. -/
def dbRoom : DB := (rooms_create emptyDB "A1" "Standard" 1).2

/-- Reachable state: room plus one admin-created student `S1`. -/
def dbRoomStu : DB := (students_create dbRoom "S1" none "" "" "" "" "" "t1").2

/-- Reachable state: student 1 allocated into room 1. -/
def dbAllocated : DB := (allocate dbRoomStu 1 1 "2026-01-01" "t2").2

/-- Reachable state: the allocated student is then deleted; the cascade
removes the allocation row but nothing touches `rooms.occupied`. -/
def dbAfterDelete : DB := delete_student dbAllocated 1

/-- The allocation row created in `dbAllocated`. -/
def allocW : Allocation := ⟨1, 1, 1, "2026-01-01", none, "active", "t2"⟩

/-- The room row of `dbRoom`/`dbRoomStu` before any allocation. -/
def roomA1 : Room := ⟨1, "A1", "Standard", 1, 0⟩

/-- A student linked to user 7, and a state containing only them. -/
def stuPortal : Student := ⟨1, some 7, "S1", none, "", "", "", "", "", "t1"⟩

/-- State for the portal-payment witness. -/
def dbPortal : DB := { emptyDB with students := [stuPortal], nextStudentId := 2 }

/-- A portal submission that tries to smuggle in `status = 'Approved'`. -/
def formApproved : PortalPaymentForm :=
  { amount := 500, method := "Challan", paid_on := "2026-02-01", note := "",
    status := "Approved", proofFile := none }

/-- An admin payment submission whose upload is a `.exe` file. -/
def formExe : PaymentForm :=
  { student_id := 1, amount := 800, method := "Cash", paid_on := "2026-02-01",
    note := "feb", status := "Pending", proofFile := some "malware.exe" }

/-- State with one existing username, for the registration-conflict witness. -/
def dbUserTaken : DB :=
  { emptyDB with users := [⟨1, "ali", "pbkdf2:x", "student", "t0"⟩], nextUserId := 2 }

/-- A student named John with no other field text, for the search claims. -/
def stuJohn : Student := ⟨1, none, "John", none, "", "", "", "", "", "t7"⟩

/-- State for the search claims. -/
def dbSearch : DB := { emptyDB with students := [stuJohn], nextStudentId := 2 }

/-- One already-closed issue, and a state containing only it. -/
def issueClosed : Issue := ⟨1, none, "Leaky tap", "", "closed", "t4"⟩

/-- State for the close-issue witness. -/
def dbIssueClosed : DB := { emptyDB with issues := [issueClosed], nextIssueId := 2 }

end HostelMS

namespace HostelMS

/-! ## Claim C2: allocating into a full room fails and changes nothing -/

/-- C2: for every allocate request where the target room's occupied count is
at least its capacity, the handler flashes the capacity error `'Room is
full'` and returns the state unchanged — no allocation row is inserted and
no room's occupied counter is mutated. -/
theorem allocate_full_room_fails (db : DB) (sid rid : Nat) (start now : String)
    (room : Room) (hr : findRoom db rid = some room)
    (hfull : room.capacity ≤ room.occupied) :
    allocate db sid rid start now = (Outcome.err "Room is full", db) := by
  unfold allocate
  rw [hr]
  simp only [if_pos hfull]

/-- Witness for C2 at a concrete full room. -/
theorem allocate_full_room_fails_witness :
    allocate dbFull 1 1 "2026-01-01" "t0" = (Outcome.err "Room is full", dbFull) :=
  allocate_full_room_fails dbFull 1 1 "2026-01-01" "t0" roomFull rfl (by decide)

end HostelMS

namespace HostelMS

/-! ## Claim C1: the occupied-equals-active-allocations invariant -/

/-- C1 (the code violates the claimed invariant): starting from a fresh
database, create room `A1` (capacity 1), create student `S1`, allocate the
student into the room, then delete the student.  The cascade removes the
active allocation row, but `rooms.occupied` is never decremented: the room
ends with `occupied = 1` while the number of its `'active'` allocations
is `0`, so `occupied` no longer equals the active-allocation count. -/
theorem occupied_invariant_broken_by_delete_student :
    (findRoom dbAfterDelete 1).map Room.occupied = some 1 ∧
    activeAllocCount dbAfterDelete 1 = 0 ∧
    ∃ r ∈ dbAfterDelete.rooms, ¬ r.occupied = (activeAllocCount dbAfterDelete r.id : Int) := by
  decide

/-! ## Claim C10: recoverable errors are surfaced, not crashes -/

/-- C10 (the code violates the claimed policy): allocating into a nonexistent
`room_id` is a `NotFoundError` case the spec says must be recovered as a
notice plus redirect, but the handler subscripts the missing `fetchone()`
row (`room['occupied']`) with no `try` around it, so the request dies with
an unhandled `TypeError` (`crash`); only the rollback on teardown keeps the
state unchanged. -/
theorem allocate_missing_room_crashes :
    findRoom dbRoomStu 99 = none ∧
    allocate dbRoomStu 1 99 "2026-01-01" "t9" = (Outcome.crash, dbRoomStu) := by
  decide

/-! ## Claim C7: deleting a student cascades exactly to their own records -/

/-- C7: `delete_student` keeps exactly the other students, the allocations and
payments of other students, nulls `student_id` on the deleted student's
issues while keeping everyone else's issues intact, and leaves the rooms
and users tables untouched. -/
theorem delete_student_cascade (db : DB) (sid : Nat) :
    (∀ s : Student, s ∈ (delete_student db sid).students ↔ s ∈ db.students ∧ s.id ≠ sid) ∧
    (∀ a : Allocation,
      a ∈ (delete_student db sid).allocations ↔ a ∈ db.allocations ∧ a.student_id ≠ sid) ∧
    (∀ p : Payment,
      p ∈ (delete_student db sid).payments ↔ p ∈ db.payments ∧ p.student_id ≠ sid) ∧
    (∀ i ∈ db.issues, i.student_id = some sid →
      { i with student_id := none } ∈ (delete_student db sid).issues) ∧
    (∀ i ∈ db.issues, i.student_id ≠ some sid → i ∈ (delete_student db sid).issues) ∧
    (delete_student db sid).rooms = db.rooms ∧
    (delete_student db sid).users = db.users := by
  refine ⟨?_, ?_, ?_, ?_, ?_, rfl, rfl⟩
  · intro s; simp [delete_student, List.mem_filter]
  · intro a; simp [delete_student, List.mem_filter]
  · intro p; simp [delete_student, List.mem_filter]
  · intro i hi hsid
    simp only [delete_student, List.mem_map]
    exact ⟨i, hi, by simp [hsid]⟩
  · intro i hi hsid
    simp only [delete_student, List.mem_map]
    exact ⟨i, hi, by simp [hsid]⟩

/-- Witness for C7 on the concrete allocated state: the allocation row of the
deleted student is gone. -/
theorem delete_student_cascade_witness :
    allocW ∈ (delete_student dbAllocated 1).allocations ↔
      allocW ∈ dbAllocated.allocations ∧ allocW.student_id ≠ 1 :=
  (delete_student_cascade dbAllocated 1).2.1 allocW

/-! ## Claim C4: registration conflicts are atomic -/

/-- C4: when the submitted username already exists in `users`, or the
submitted email already exists in `students`, registration flashes the
conflict error and the persisted state is exactly the old one — no new
User row and no new Student row survive (the uncommitted user insert of
the email-conflict case is rolled back at connection teardown). -/
theorem register_conflict_is_atomic (db : DB) (username password name : String)
    (email : Option String) (phone guardian department batch semester now : String)
    (h : db.users.any (fun u => u.username == username) = true ∨
      emailTaken db email = true) :
    register db username password name email phone guardian department batch semester now
      = (Outcome.err "Username or email already exists.", db) := by
  unfold register insertUser
  by_cases hu : db.users.any (fun u => u.username == username) = true
  · simp [hu]
  · have he : emailTaken db email = true := h.resolve_left hu
    simp only [hu, Bool.false_eq_true, if_false]
    unfold insertStudent
    have he' : emailTaken
        { db with
          users := db.users ++ [⟨db.nextUserId, username, hashPassword password, "student", now⟩],
          nextUserId := db.nextUserId + 1 } email = true := by
      cases email with
      | none => simp [emailTaken] at he
      | some e => simpa [emailTaken] using he
    simp [he']

/-- Witness for C4: registering with the taken username `ali`. -/
theorem register_conflict_is_atomic_witness :
    register dbUserTaken "ali" "pw" "Ali" none "" "" "" "" "" "t5"
      = (Outcome.err "Username or email already exists.", dbUserTaken) :=
  register_conflict_is_atomic dbUserTaken "ali" "pw" "Ali" none "" "" "" "" "" "t5"
    (Or.inl (by decide))

/-! ## Claim C5: portal payments are always Pending and self-owned -/

/-- C5: a student's `/portal/payments` submission inserts exactly one payment
row whose status is the literal `'Pending'` — whatever status value the
request carried — and whose `student_id` is the id of the session user's
own linked student profile, never a form value. -/
theorem portal_payment_forced_pending (db : DB) (uid : Nat) (f : PortalPaymentForm)
    (now today : String) (stu : Student)
    (hstu : findStudentByUser db uid = some stu) :
    (portal_payments_post db uid f now today).1 = Outcome.ok ∧
    ∃ pmt : Payment,
      (portal_payments_post db uid f now today).2.payments = db.payments ++ [pmt] ∧
      pmt.status = "Pending" ∧ pmt.student_id = stu.id := by
  unfold portal_payments_post
  rw [hstu]
  exact ⟨rfl, ⟨_, rfl, rfl, rfl⟩⟩

/-- Witness for C5: even a submission carrying `status = 'Approved'` is stored
as `Pending`, under the session student's own id. -/
theorem portal_payment_forced_pending_witness :
    (portal_payments_post dbPortal 7 formApproved "t3" "2026-02-02").1 = Outcome.ok ∧
    ∃ pmt : Payment,
      (portal_payments_post dbPortal 7 formApproved "t3" "2026-02-02").2.payments =
        dbPortal.payments ++ [pmt] ∧
      pmt.status = "Pending" ∧ pmt.student_id = stuPortal.id :=
  portal_payment_forced_pending dbPortal 7 formApproved "t3" "2026-02-02" stuPortal rfl

end HostelMS

namespace HostelMS

/-! ## Claim C6: disallowed upload extensions are dropped, not fatal -/

/-- A filename with no dot, or whose lowercased last extension is outside the
allow-list, fails `allowed_file`. -/
theorem allowed_file_eq_false (fn : String)
    (h : '.' ∉ fn.data ∨
      ∀ e ∈ ALLOWED_EXTS, e.data ≠ lowerChars (afterLastDot fn.data)) :
    allowed_file fn = false := by
  unfold allowed_file
  rcases h with h | h
  · have hc : fn.data.contains '.' = false := by
      cases hc : fn.data.contains '.'
      · rfl
      · exact absurd (List.elem_iff.mp hc) h
    rw [hc]
    exact Bool.false_and _
  · have ha : ALLOWED_EXTS.any
        (fun e => e.data == lowerChars (afterLastDot fn.data)) = false := by
      cases ha : ALLOWED_EXTS.any (fun e => e.data == lowerChars (afterLastDot fn.data))
      · rfl
      · obtain ⟨e, he, hbeq⟩ := List.any_eq_true.mp ha
        exact absurd (by simpa using hbeq) (h e he)
    rw [ha]
    exact Bool.and_false _

/-- C6: a payment submission carrying an uploaded file whose name has no dot,
or whose extension (case-insensitively) is outside the allow-list, still
inserts the payment row with all its other fields, with `proof_path` NULL;
the upload is silently dropped rather than failing the submission. -/
theorem payment_bad_extension_still_recorded (db : DB) (f : PaymentForm)
    (now today fn : String) (hs : studentExists db f.student_id = true)
    (hfile : f.proofFile = some fn)
    (hbad : '.' ∉ fn.data ∨
      ∀ e ∈ ALLOWED_EXTS, e.data ≠ lowerChars (afterLastDot fn.data)) :
    payments_post db f now today =
      (Outcome.ok,
        { db with
          payments := db.payments ++
            [⟨db.nextPaymentId, f.student_id, f.amount, f.method,
              (if f.paid_on = "" then today else f.paid_on), f.note, none,
              f.status, now⟩],
          nextPaymentId := db.nextPaymentId + 1 }) := by
  have hall := allowed_file_eq_false fn hbad
  unfold payments_post
  rw [hfile]
  simp [hs, hall]

/-- Witness for C6: a `.exe` upload on the concrete one-student state. -/
theorem payment_bad_extension_still_recorded_witness :
    payments_post dbRoomStu formExe "t6" "2026-02-01" =
      (Outcome.ok,
        { dbRoomStu with
          payments := dbRoomStu.payments ++
            [⟨dbRoomStu.nextPaymentId, formExe.student_id, formExe.amount,
              formExe.method,
              (if formExe.paid_on = "" then "2026-02-01" else formExe.paid_on),
              formExe.note, none, formExe.status, "t6"⟩],
          nextPaymentId := dbRoomStu.nextPaymentId + 1 }) :=
  payment_bad_extension_still_recorded dbRoomStu formExe "t6" "2026-02-01"
    "malware.exe" (by decide) rfl (Or.inr (by decide))

end HostelMS

namespace HostelMS

/-! ## Claim C9: closing issues is admin-only, idempotent, one-way -/

/-- Elementwise view of zipping a list with its image under a map. -/
theorem zip_map_self {α : Type} (g : α → α) :
    ∀ (l : List α) (pr : α × α), pr ∈ l.zip (l.map g) → pr.2 = g pr.1 := by
  intro l
  induction l with
  | nil => intro pr h; simp at h
  | cons a t ih =>
    intro pr h
    simp only [List.map_cons, List.zip_cons_cons, List.mem_cons] at h
    rcases h with h | h
    · subst h; rfl
    · exact ih pr h

/-- The close-issue `UPDATE` is the identity when every issue with the target
id is already closed. -/
theorem close_update_eq_self (iid : Nat) :
    ∀ l : List Issue, (∀ i ∈ l, i.id = iid → i.status = "closed") →
      l.map (fun i => if i.id == iid then { i with status := "closed" } else i) = l := by
  intro l
  induction l with
  | nil => intro _; rfl
  | cons a t ih =>
    intro h
    simp only [List.map_cons]
    have ht : t.map (fun i => if i.id == iid then { i with status := "closed" } else i) = t :=
      ih (fun i hi => h i (List.mem_cons_of_mem a hi))
    rw [ht]
    by_cases ha : a.id = iid
    · have hst := h a (List.mem_cons_self a t) ha
      cases a
      simp_all
    · simp [ha]

/-- C9: a non-admin close request is rejected with an authorization error and
no issue row changes; an admin close on an already-closed issue is an
idempotent no-op; and close requests only move issues from `open` to
`closed`, never back. -/
theorem close_issue_spec (db : DB) (role : String) (iid : Nat) :
    (role ≠ "admin" → close_issue db role iid = (Outcome.err "Not authorized", db)) ∧
    ((∀ i ∈ db.issues, i.id = iid → i.status = "closed") →
      close_issue db "admin" iid = (Outcome.ok, db)) ∧
    (∀ pr ∈ db.issues.zip (close_issue db role iid).2.issues,
      (pr.1.status = "closed" → pr.2.status = "closed") ∧
      ((pr.1.status = "open" ∨ pr.1.status = "closed") →
        pr.2.status ≠ pr.1.status → pr.1.status = "open" ∧ pr.2.status = "closed")) := by
  refine ⟨?_, ?_, ?_⟩
  · intro hrole
    unfold close_issue
    rw [if_pos hrole]
  · intro hcl
    unfold close_issue
    rw [if_neg (by simp)]
    rw [close_update_eq_self iid db.issues hcl]
  · intro pr hpr
    by_cases hrole : role = "admin"
    · subst hrole
      unfold close_issue at hpr
      rw [if_neg (by simp)] at hpr
      have h2 := zip_map_self
        (fun i => if i.id == iid then { i with status := "closed" } else i)
        db.issues pr hpr
      constructor
      · intro h1
        by_cases hid : pr.1.id = iid
        · rw [h2]; simp [hid]
        · rw [h2]; simp [hid, h1]
      · intro hwf hne
        by_cases hid : pr.1.id = iid
        · have hproj : pr.2.status = "closed" := by rw [h2]; simp [hid]
          rcases hwf with hopen | hclosed
          · exact ⟨hopen, hproj⟩
          · exact absurd (hproj.trans hclosed.symm) hne
        · have hproj : pr.2 = pr.1 := by rw [h2]; simp [hid]
          exact absurd (congrArg Issue.status hproj) hne
    · unfold close_issue at hpr
      rw [if_pos hrole] at hpr
      have h2 : pr.2 = pr.1 := by
        have := zip_map_self (fun i => i) db.issues pr (by simpa using hpr)
        simpa using this
      rw [h2]
      exact ⟨fun h1 => h1, fun _ hne => absurd rfl hne⟩

/-- Witness for C9: a student is rejected, and an admin close on the
already-closed issue leaves the state exactly as it was. -/
theorem close_issue_spec_witness :
    close_issue dbIssueClosed "student" 1 = (Outcome.err "Not authorized", dbIssueClosed) ∧
    close_issue dbIssueClosed "admin" 1 = (Outcome.ok, dbIssueClosed) :=
  ⟨(close_issue_spec dbIssueClosed "student" 1).1 (by decide),
   (close_issue_spec dbIssueClosed "admin" 1).2.1 (by decide)⟩

end HostelMS

namespace HostelMS

/-! ## Claim C3: allocate-then-release restores the occupancy counter -/

/-- `find?` over a list ending in the only matching element. -/
theorem find_append_singleton {α : Type} (p : α → Bool) (l : List α) (x : α)
    (hl : ∀ a ∈ l, p a = false) (hx : p x = true) :
    (l ++ [x]).find? p = some x := by
  induction l with
  | nil => simp [List.find?, hx]
  | cons a t ih =>
    have ha := hl a (List.mem_cons_self a t)
    rw [List.cons_append, List.find?_cons_of_neg _ (by simp [ha])]
    exact ih (fun b hb => hl b (List.mem_cons_of_mem a hb))

/-- `UPDATE ... WHERE p` (a map that rewrites exactly the rows matching `p`)
moves `find? p` across: the first matching row becomes its update, provided
the update keeps it matching. -/
theorem find_map_update {α : Type} (p : α → Bool) (g : α → α)
    (hpg : ∀ a, p a = true → p (g a) = true) :
    ∀ (l : List α) (x : α), l.find? p = some x →
      (l.map (fun a => if p a then g a else a)).find? p = some (g x) := by
  intro l
  induction l with
  | nil => intro x hx; simp at hx
  | cons a t ih =>
    intro x hx
    by_cases hpa : p a = true
    · rw [List.find?_cons_of_pos _ hpa] at hx
      have hax : a = x := Option.some.inj hx
      subst hax
      simp only [List.map_cons, if_pos hpa]
      exact List.find?_cons_of_pos _ (hpg a hpa)
    · have hpa' : ¬ p a := hpa
      rw [List.find?_cons_of_neg _ hpa'] at hx
      simp only [List.map_cons, if_neg hpa']
      rw [List.find?_cons_of_neg _ hpa']
      exact ih x hx

/-- Successful allocate, written out: the active allocation row is appended
and the room's occupied counter is incremented, atomically. -/
theorem allocate_success_eq (db : DB) (sid rid : Nat) (start now : String)
    (room : Room) (hr : findRoom db rid = some room)
    (hcap : room.occupied < room.capacity) (hs : studentExists db sid = true) :
    allocate db sid rid start now =
      (Outcome.ok,
        { db with
          allocations := db.allocations ++
            [⟨db.nextAllocId, sid, rid, start, none, "active", now⟩],
          nextAllocId := db.nextAllocId + 1,
          rooms := db.rooms.map (fun r =>
            if r.id == rid then { r with occupied := r.occupied + 1 } else r) }) := by
  unfold allocate
  rw [hr]
  dsimp only
  rw [if_neg (not_le.mpr hcap), if_pos hs]

/-- Release of an active allocation, written out. -/
theorem release_active_eq (db : DB) (aid : Nat) (today : String)
    (alloc : Allocation) (hfind : findAlloc db aid = some alloc)
    (hact : alloc.status = "active") :
    release db aid today =
      (Outcome.ok,
        { db with
          allocations := db.allocations.map (fun a =>
            if a.id == aid then
              { a with status := "released", end_date := some today }
            else a),
          rooms := db.rooms.map (fun r =>
            if r.id == alloc.room_id then
              { r with occupied := if 0 < r.occupied then r.occupied - 1 else 0 }
            else r) }) := by
  unfold release
  rw [hfind]
  dsimp only
  rw [if_pos hact]

/-- C3: allocating a student into a room with spare capacity and then
releasing the allocation just created succeeds, leaves the room's occupied
counter exactly at its pre-allocate value, and ends the allocation row
with status `'released'` and end date set to today's date. -/
theorem allocate_then_release_restores (db : DB) (sid rid : Nat)
    (start now today : String) (room : Room)
    (hr : findRoom db rid = some room)
    (hocc : 0 ≤ room.occupied) (hcap : room.occupied < room.capacity)
    (hs : studentExists db sid = true)
    (hfresh : ∀ a ∈ db.allocations, a.id ≠ db.nextAllocId) :
    (allocate db sid rid start now).1 = Outcome.ok ∧
    (release (allocate db sid rid start now).2 db.nextAllocId today).1 = Outcome.ok ∧
    (findRoom (release (allocate db sid rid start now).2 db.nextAllocId today).2 rid).map
        Room.occupied = some room.occupied ∧
    ∃ a ∈ (release (allocate db sid rid start now).2 db.nextAllocId today).2.allocations,
      a.id = db.nextAllocId ∧ a.status = "released" ∧ a.end_date = some today := by
  have hA := allocate_success_eq db sid rid start now room hr hcap hs
  rw [hA]
  have hfindA : findAlloc
      ({ db with
        allocations := db.allocations ++
          [⟨db.nextAllocId, sid, rid, start, none, "active", now⟩],
        nextAllocId := db.nextAllocId + 1,
        rooms := db.rooms.map (fun r =>
          if r.id == rid then { r with occupied := r.occupied + 1 } else r) } : DB)
      db.nextAllocId =
      some ⟨db.nextAllocId, sid, rid, start, none, "active", now⟩ := by
    unfold findAlloc
    exact find_append_singleton _ _ _
      (fun a ha => beq_eq_false_iff_ne.mpr (hfresh a ha)) (by simp)
  have hR := release_active_eq _ db.nextAllocId today _ hfindA rfl
  rw [hR]
  refine ⟨rfl, rfl, ?_, ?_⟩
  · simp only [findRoom] at hr ⊢
    dsimp only
    have h2 := find_map_update (fun r : Room => r.id == rid)
      (fun r => { r with occupied := r.occupied + 1 }) (fun a h => h) db.rooms room hr
    have h3 := find_map_update (fun r : Room => r.id == rid)
      (fun r => { r with occupied := if 0 < r.occupied then r.occupied - 1 else 0 })
      (fun a h => h) _ _ h2
    rw [h3]
    dsimp only [Option.map_some]
    rw [if_pos (show (0:Int) < room.occupied + 1 by omega)]
    exact congrArg some (by dsimp only; omega)
  · refine ⟨⟨db.nextAllocId, sid, rid, start, some today, "released", now⟩, ?_, rfl, rfl, rfl⟩
    dsimp only
    have hmem : (⟨db.nextAllocId, sid, rid, start, none, "active", now⟩ : Allocation) ∈
        db.allocations ++ [⟨db.nextAllocId, sid, rid, start, none, "active", now⟩] :=
      List.mem_append_right _ (List.mem_singleton.mpr rfl)
    have himg := List.mem_map_of_mem (fun a =>
      if a.id == db.nextAllocId then
        { a with status := "released", end_date := some today }
      else a) hmem
    simp only [beq_self_eq_true, if_true] at himg
    exact himg

/-- Witness for C3 on the concrete room/student state: occupancy returns to 0
and the allocation ends released with the release date. -/
theorem allocate_then_release_restores_witness :
    (allocate dbRoomStu 1 1 "2026-01-01" "t2").1 = Outcome.ok ∧
    (release (allocate dbRoomStu 1 1 "2026-01-01" "t2").2 dbRoomStu.nextAllocId
        "2026-03-01").1 = Outcome.ok ∧
    (findRoom (release (allocate dbRoomStu 1 1 "2026-01-01" "t2").2
        dbRoomStu.nextAllocId "2026-03-01").2 1).map Room.occupied =
      some roomA1.occupied ∧
    ∃ a ∈ (release (allocate dbRoomStu 1 1 "2026-01-01" "t2").2
        dbRoomStu.nextAllocId "2026-03-01").2.allocations,
      a.id = dbRoomStu.nextAllocId ∧ a.status = "released" ∧
        a.end_date = some "2026-03-01" :=
  allocate_then_release_restores dbRoomStu 1 1 "2026-01-01" "t2" "2026-03-01" roomA1
    (by decide) (by decide) (by decide) (by decide) (by decide)

end HostelMS

namespace HostelMS

/-! ## Claim C8: the student search -/

/-- `anySuffix f s` holds exactly when `f` accepts some suffix of `s`. -/
theorem anySuffix_iff (f : List Char → Bool) (s : List Char) :
    anySuffix f s = true ↔ ∃ t, t <:+ s ∧ f t = true := by
  induction s with
  | nil =>
    constructor
    · intro h; exact ⟨[], List.suffix_rfl, h⟩
    · rintro ⟨t, ht, hf⟩
      have h0 : t = [] := List.suffix_nil.mp ht
      subst h0
      exact hf
  | cons c s ih =>
    simp only [anySuffix, Bool.or_eq_true, ih]
    constructor
    · rintro (h | ⟨t, ht, hf⟩)
      · exact ⟨c :: s, List.suffix_rfl, h⟩
      · exact ⟨t, ht.trans (List.suffix_cons c s), hf⟩
    · rintro ⟨t, ht, hf⟩
      rcases List.suffix_cons_iff.mp ht with h | h
      · subst h; exact Or.inl hf
      · exact Or.inr ⟨t, h, hf⟩

/-- A wildcard-free pattern followed by `%` matches exactly the texts whose
ASCII-lowercased form starts with the lowercased pattern. -/
theorem likeMatch_literal_percent :
    ∀ q : List Char, '%' ∉ q → '_' ∉ q →
      ∀ s : List Char,
        (likeMatch (q ++ ['%']) s = true ↔ lowerChars q <+: lowerChars s) := by
  intro q
  induction q with
  | nil =>
    intro _ _ s
    have hs : likeMatch ['%'] s = true := by
      show anySuffix (likeMatch []) s = true
      exact (anySuffix_iff _ s).mpr ⟨[], List.nil_suffix, rfl⟩
    simp [hs, lowerChars]
  | cons a q ih =>
    intro h1 h2 s
    have ha1 : a ≠ '%' := fun h => h1 (h ▸ List.mem_cons_self a q)
    have ha2 : a ≠ '_' := fun h => h2 (h ▸ List.mem_cons_self a q)
    have h1' : '%' ∉ q := fun h => h1 (List.mem_cons_of_mem a h)
    have h2' : '_' ∉ q := fun h => h2 (List.mem_cons_of_mem a h)
    cases s with
    | nil =>
      simp only [List.cons_append, likeMatch, if_neg ha1]
      simp [lowerChars]
    | cons c s =>
      simp only [List.cons_append, likeMatch, if_neg ha1, List.append_eq]
      rw [show (a == '_') = false from beq_eq_false_iff_ne.mpr ha2, Bool.false_or,
        Bool.and_eq_true, ih h1' h2' s]
      simp only [lowerChars, List.map_cons]
      rw [List.cons_prefix_cons]
      simp [lowerChars]

/-- `isSubChars` is exactly the infix (contiguous-substring) relation. -/
theorem isSubChars_iff (q : List Char) :
    ∀ s : List Char, isSubChars q s = true ↔ q <:+: s := by
  intro s
  induction s with
  | nil =>
    simp only [isSubChars, List.isEmpty_iff, List.infix_nil]
  | cons c s ih =>
    simp only [isSubChars, Bool.or_eq_true, ih, List.infix_cons_iff,
      List.isPrefixOf_iff_prefix]

/-- For a wildcard-free query, the `LIKE '%q%'` filter of the search is
exactly the spec's case-insensitive-substring test. -/
theorem likeMatch_pattern_iff (q : String) (hw : noWildcards q) (s : List Char) :
    likeMatch (patOf q) s = true ↔
      isSubChars (lowerChars q.data) (lowerChars s) = true := by
  rw [isSubChars_iff]
  show anySuffix (likeMatch (q.data ++ ['%'])) s = true ↔ _
  rw [anySuffix_iff]
  constructor
  · rintro ⟨t, ht, hm⟩
    rw [likeMatch_literal_percent q.data hw.1 hw.2 t] at hm
    exact List.infix_iff_prefix_suffix.mpr ⟨lowerChars t, hm, ht.map Char.toLower⟩
  · intro h
    obtain ⟨u, hu1, hu2⟩ := List.infix_iff_prefix_suffix.mp h
    obtain ⟨v, hv⟩ := hu2
    have hv' : List.map Char.toLower s = v ++ u := hv.symm
    obtain ⟨s1, s2, hs, hm1, hm2⟩ := List.map_eq_append_iff.mp hv'
    refine ⟨s2, ⟨s1, hs.symm⟩, ?_⟩
    rw [likeMatch_literal_percent q.data hw.1 hw.2 s2]
    show lowerChars q.data <+: List.map Char.toLower s2
    rw [hm2]
    exact hu1

/-- For a wildcard-free query, the route's row filter coincides with the
spec's OR of case-insensitive substring tests. -/
theorem studentMatches_iff_spec (q : String) (hw : noWildcards q) (s : Student) :
    studentMatches q s = true ↔ specStudentMatches q s = true := by
  have h : ∀ f : String, fieldLike q f = true ↔ isSubstrCI q f = true := by
    intro f
    unfold fieldLike isSubstrCI
    exact likeMatch_pattern_iff q hw f.data
  cases he : s.email with
  | none =>
    simp only [studentMatches, specStudentMatches, optFieldLike, he,
      Bool.or_eq_true, Bool.false_eq_true, false_or, or_false]
    rw [h s.name, h s.department, h s.batch, h s.semester]
  | some e =>
    simp only [studentMatches, specStudentMatches, optFieldLike, he,
      Bool.or_eq_true]
    rw [h s.name, h e, h s.department, h s.batch, h s.semester]

/-- Membership through the descending insertion. -/
theorem mem_insertByIdDesc (s a : Student) (l : List Student) :
    a ∈ insertByIdDesc s l ↔ a = s ∨ a ∈ l := by
  induction l with
  | nil => simp [insertByIdDesc]
  | cons t ts ih =>
    simp only [insertByIdDesc]
    split
    · simp [List.mem_cons]
    · simp only [List.mem_cons, ih]
      tauto

/-- `ORDER BY id DESC` returns the same rows. -/
theorem mem_sortByIdDesc (a : Student) (l : List Student) :
    a ∈ sortByIdDesc l ↔ a ∈ l := by
  induction l with
  | nil => simp [sortByIdDesc]
  | cons s ss ih => simp [sortByIdDesc, mem_insertByIdDesc, ih]

/-- Inserting into a descending list keeps it descending. -/
theorem sorted_insertByIdDesc (s : Student) (l : List Student)
    (hl : sortedDescProp l) : sortedDescProp (insertByIdDesc s l) := by
  induction l with
  | nil => simp [insertByIdDesc, sortedDescProp]
  | cons t ts ih =>
    rcases List.pairwise_cons.mp hl with ⟨ht, hts⟩
    simp only [insertByIdDesc]
    split
    · rename_i hcond
      refine List.pairwise_cons.mpr ⟨?_, hl⟩
      intro b hb
      rcases List.mem_cons.mp hb with rfl | hb
      · exact hcond
      · exact le_trans (ht b hb) hcond
    · rename_i hcond
      push_neg at hcond
      refine List.pairwise_cons.mpr ⟨?_, ih hts⟩
      intro b hb
      rcases (mem_insertByIdDesc s b ts).mp hb with rfl | hb
      · exact le_of_lt hcond
      · exact ht b hb

/-- `ORDER BY id DESC` output is descending by id. -/
theorem sorted_sortByIdDesc (l : List Student) : sortedDescProp (sortByIdDesc l) := by
  induction l with
  | nil => exact List.Pairwise.nil
  | cons s ss ih => exact sorted_insertByIdDesc s _ ih

/-- C8 counterexample: the route pastes `q` into the `LIKE` pattern unescaped,
so the wildcard query `q = "%"` returns the student John even though `"%"`
is not a case-insensitive substring of any of John's five fields. -/
theorem students_search_wildcard_counterexample :
    stuJohn ∈ students_search dbSearch "%" ∧
      specStudentMatches "%" stuJohn = false := by
  decide

/-- C8 (amended): for a search string without SQL `LIKE` wildcards (`%`, `_`),
the search returns exactly the students with the query as an ASCII
case-insensitive substring of at least one of name, email, department,
batch or semester; the empty search string returns all students; and in
both cases rows come most-recent-first (descending id). -/
theorem students_search_amended (db : DB) (q : String) (hw : noWildcards q) :
    (q ≠ "" → ∀ s : Student,
      s ∈ students_search db q ↔ s ∈ db.students ∧ specStudentMatches q s = true) ∧
    (q = "" → ∀ s : Student, s ∈ students_search db q ↔ s ∈ db.students) ∧
    sortedDescProp (students_search db q) := by
  refine ⟨?_, ?_, ?_⟩
  · intro hq s
    unfold students_search
    rw [if_neg hq, mem_sortByIdDesc, List.mem_filter,
      studentMatches_iff_spec q hw s]
  · intro hq s
    unfold students_search
    rw [if_pos hq, mem_sortByIdDesc]
  · unfold students_search
    split
    · exact sorted_sortByIdDesc _
    · exact sorted_sortByIdDesc _

/-- Witness for the amended C8: searching `oh` finds John by substring. -/
theorem students_search_amended_witness :
    stuJohn ∈ students_search dbSearch "oh" ↔
      stuJohn ∈ dbSearch.students ∧ specStudentMatches "oh" stuJohn = true :=
  (students_search_amended dbSearch "oh" ⟨by decide, by decide⟩).1 (by decide) stuJohn

end HostelMS
